import Mathlib

/-!
Shallow embedding of the core request/response lifecycle engine of the
MyAlyce/fitbit-api client, together with proofs about it.

Embedded pieces (all translated from the TypeScript source):
* `dictToUrlParams` — the dictionary-to-query-string helper;
* `fromDateObj`, `toDate` — the flexible date normalizer;
* `setAccessToken`, `getApiInfo` — credential installation and reads;
* `handleData` — the response classifier with its bounded
  credential-refresh retry;
* `pageGenerator` — the cursor-driven page walk (modelled as the
  full consumption of the async generator).

JavaScript host behaviour is modelled explicitly:
* a `Date` instance is an `Option Int` time value (`none` = NaN, the
  "Invalid Date" state);
* exceptions are `Except String`;
* the HTTP transport is a function from (url, call index) to a response;
* mutable client state (`this.accessToken`, the default Authorization
  header, the transport call log) is threaded as an explicit record.

After the embedded definitions come proof-side helper predicates (mock
chained-page transports, the credential invariant), the step lemmas, the
claim theorems and their closed witnesses.
-/

namespace Fitbit


/-- One entry of the structured `errors` list of a Fitbit error body
(`{errorType, message}`). -/
structure ErrEntry where
  errorType : String
  message : String
deriving DecidableEq, Repr

/-- The `pagination` record embedded in paginated payloads
(`{limit, offset, sort, next, previous}`); `next` is the URL of the
following page, `""` when no further page exists. -/
structure PaginationRec where
  limit : Int
  offset : Int
  sort : String
  next : String
  previous : String
deriving DecidableEq, Repr

/-- A parsed JSON body, restricted to the fields the classifier and the
page generator actually read: the optional `errors` key (`some` models
`hasKey json 'errors'`), the optional `pagination` record, and the named
collection fields (`(json as any)[dataKey]`). -/
structure PJson where
  errors : Option (List ErrEntry)
  pagination : Option PaginationRec
  collections : List (String × List String)
deriving DecidableEq, Repr

/-- A transport `Response`: `ok`, `status`, iterable headers, and the
result of `response.json()` — `none` when `json()` throws (empty or
non-JSON body), `some j` when the body parses to `j` (`j = none` models a
parsed JSON `null`). -/
structure TResponse where
  ok : Bool
  status : Int
  headers : List (String × String)
  body : Option (Option PJson)
deriving DecidableEq, Repr

/-- The classifier's result type: the `type: 'ERROR'` branch carries
`code`, `error : FitbitError | null`, the response handle and the header
dictionary; the `type: 'SUCCESS'` branch carries `code`, `data` (the
parsed payload, possibly `null`), the response handle and the header
dictionary. -/
inductive ApiResult where
  | error (code : Int) (error : Option PJson) (response : TResponse)
      (headers : List (String × String))
  | success (code : Int) (data : Option PJson) (response : TResponse)
      (headers : List (String × String))
deriving DecidableEq, Repr

/-- The `isSuccess` discriminant of an `ApiResult`. -/
def ApiResult.isSuccess : ApiResult → Bool
  | .error .. => false
  | .success .. => true

/-- Mutable state of a `FitbitApi` instance: the `accessToken` field, the
default `Authorization` header installed on the underlying `Api` handle,
the user id, plus an observation log of the transport (number of calls
made, urls called in order) and a count of `setAccessToken` invocations. -/
structure ClientState where
  accessToken : String
  authHeader : String
  fitBitUserId : String
  callCount : Nat
  urlsCalled : List String
  setCount : Nat
deriving DecidableEq, Repr

/-- The HTTP transport collaborator: the response returned for a given url
at a given global call index. -/
def Transport : Type := String → Nat → TResponse

/-- State effect of one transport invocation (`this.api.get(url)` etc.):
the call counter advances and the url is logged. -/
def bumpState (url : String) (s : ClientState) : ClientState :=
  { s with callCount := s.callCount + 1, urlsCalled := s.urlsCalled ++ [url] }

/-- JavaScript object-key assignment `headers[key] = val`: overwrite in
place when the key exists, append otherwise. -/
def upsert (l : List (String × String)) (k v : String) : List (String × String) :=
  match l with
  | [] => [(k, v)]
  | (k₁, v₁) :: t => if k₁ = k then (k₁, v) :: t else (k₁, v₁) :: upsert t k v

/-- `for (const [key, val] of response.headers.entries()) headers[key] = val`. -/
def buildHeaders (entries : List (String × String)) : List (String × String) :=
  entries.foldl (fun acc kv => upsert acc kv.1 kv.2) []

/-- `json && hasKey(json, 'errors')`: a parsed payload is non-null and
carries the `errors` key. -/
def jsonHasErrors : Option PJson → Bool
  | some p => p.errors.isSome
  | none => false

/-- `setAccessToken(token)`: sets the `accessToken` field and installs
`Bearer ${token}` as the default `Authorization` header (the
`setCount` field counts these installations for observation). -/
def setAccessToken (token : String) (s : ClientState) : ClientState :=
  { s with
    accessToken := token,
    authHeader := "Bearer " ++ token,
    setCount := s.setCount + 1 }

/-- The constructor `new FitbitApi(accessToken, fitBitUserId, getToken?)`:
records the fields and calls `this.setAccessToken(accessToken)`. -/
def initClient (accessToken fitBitUserId : String) : ClientState :=
  setAccessToken accessToken
    { accessToken := accessToken, authHeader := "", fitBitUserId := fitBitUserId,
      callCount := 0, urlsCalled := [], setCount := 0 }

/-- `getApiInfo()` returns `{accessToken, fitBitUserId}`. -/
def getApiInfo (s : ClientState) : String × String :=
  (s.accessToken, s.fitBitUserId)

/-- A refresh callback (`getToken`), indexed by the retry depth at which
it is invoked; `Except.error` models the callback throwing. -/
def RefreshCb : Type := Nat → Except String String

/-- Body of `private async handleData<T>(dataCall, nRecur = 0)`, with an
explicit structural `fuel` argument standing for the remaining retry
budget `2 - nRecur` (the recursion is guarded by `nRecur < 2`, so callers
that go through `handleData` always have `fuel = 2 - nRecur` and the
fuel-exhausted branch is unreachable).

Translation notes, line by line against the source:
* `const response = await dataCall()` — one transport invocation at the
  current call index, state bumped;
* header collection into a dictionary;
* `try json = await response.json() catch { if (!ok) { if (code !== 500)
  throw new Error('Unhandled Error') } ; json = null }`;
* failure guard `if (!response.ok || (json && hasKey(json, 'errors')))`;
* `error = json` when the `errors` key is present;
* `const { errorType: err } = json.errors[0]` — destructuring
  `undefined` (an empty `errors` array) throws a TypeError;
* refresh guard `(err === 'expired_token' || err === 'invalid_token') &&
  this.getToken && nRecur < 2`, with the refresh call, the
  `setAccessToken` installation and the recursive retry inside a
  `try`/`catch` whose catch falls through to the original failure return
  (so a throwing refresh callback, and also a throwing retried call, are
  swallowed);
* the `ERROR` and `SUCCESS` return objects. -/
def handleDataAux (tr : Transport) (url : String) (getToken : Option RefreshCb)
    (fuel : Nat) (nRecur : Nat) (s : ClientState) :
    Except String ApiResult × ClientState :=
  let response := tr url s.callCount
  let s₁ := bumpState url s
  let headers := buildHeaders response.headers
  let parsed : Except String (Option PJson) :=
    match response.body with
    | some j => .ok j
    | none =>
      if response.ok = false ∧ response.status ≠ 500 then .error "Unhandled Error"
      else .ok none
  match parsed with
  | .error msg => (.error msg, s₁)
  | .ok json =>
    if response.ok = false ∨ jsonHasErrors json = true then
      let error : Option PJson := if jsonHasErrors json = true then json else none
      match json with
      | some p =>
        match p.errors with
        | some [] => (.error "TypeError", s₁)
        | some (e₀ :: _) =>
          if h : (e₀.errorType = "expired_token" ∨ e₀.errorType = "invalid_token")
              ∧ getToken.isSome = true ∧ nRecur < 2 then
            match (getToken.get h.2.1) nRecur with
            | .ok token =>
              let s₂ := setAccessToken token s₁
              match fuel with
              | fuel' + 1 =>
                match handleDataAux tr url getToken fuel' (nRecur + 1) s₂ with
                | (.ok v, s₃) => (.ok v, s₃)
                | (.error _, s₃) =>
                  (.ok (.error response.status error response headers), s₃)
              | 0 => (.ok (.error response.status error response headers), s₂)
            | .error _ => (.ok (.error response.status error response headers), s₁)
          else (.ok (.error response.status error response headers), s₁)
        | none => (.ok (.error response.status error response headers), s₁)
      | none => (.ok (.error response.status error response headers), s₁)
    else (.ok (.success response.status json response headers), s₁)

/-- `handleData(dataCall, nRecur)`: the classifier. `Except.error` models
a thrown exception escaping the method; the second component is the
client state after the call. -/
def handleData (tr : Transport) (url : String) (getToken : Option RefreshCb)
    (nRecur : Nat) (s : ClientState) : Except String ApiResult × ClientState :=
  handleDataAux tr url getToken (2 - nRecur) nRecur s

/-- One state snapshot produced by the page generator:
`{ lastResponse, allData, totalCalls }`. -/
structure PageState where
  lastResponse : ApiResult
  allData : List String
  totalCalls : Nat
deriving DecidableEq, Repr

/-- The `while (nextUrl)` loop of `pageGenerator`, consumed to the end:
returns the list of yielded snapshots together with the final (returned)
snapshot. `fuel` bounds the number of loop iterations; `.error
"OutOfFuel"` is returned only when the walk is longer than the supplied
fuel (never under the finite-walk hypotheses used below).

Loop body, as in the source: fetch `nextUrl` through `handleData`,
increment `totalCalls`, return the current snapshot on a classified
failure, otherwise read `data.pagination.next` (TypeError on a null
payload or a missing `pagination` key), append `data[dataKey]` (TypeError
when the key is missing), and yield the updated snapshot only when the
new cursor is non-empty. -/
def pageGeneratorLoop (tr : Transport) (getToken : Option RefreshCb) (dataKey : String)
    (fuel : Nat) (lastResponse : ApiResult) (nextUrl : String) (allData : List String)
    (totalCalls : Nat) (yields : List PageState) (s : ClientState) :
    Except String (List PageState × PageState) × ClientState :=
  if nextUrl = "" then (.ok (yields, ⟨lastResponse, allData, totalCalls⟩), s)
  else
    match fuel with
    | 0 => (.error "OutOfFuel", s)
    | fuel' + 1 =>
      match handleData tr nextUrl getToken 0 s with
      | (.error msg, s₁) => (.error msg, s₁)
      | (.ok next, s₁) =>
        let totalCalls' := totalCalls + 1
        match next with
        | .error .. => (.ok (yields, ⟨next, allData, totalCalls'⟩), s₁)
        | .success _ data _ _ =>
          match data with
          | none => (.error "TypeError", s₁)
          | some p =>
            match p.pagination with
            | none => (.error "TypeError", s₁)
            | some pg =>
              match p.collections.lookup dataKey with
              | none => (.error "TypeError", s₁)
              | some items =>
                let allData' := allData ++ items
                if pg.next = "" then
                  (.ok (yields, ⟨next, allData', totalCalls'⟩), s₁)
                else
                  pageGeneratorLoop tr getToken dataKey fuel' next pg.next allData'
                    totalCalls' (yields ++ [⟨next, allData', totalCalls'⟩]) s₁

/-- `private async pageGenerator<O, T>(startingUrl, dataKey)`, modelled as
the full consumption of the returned async generator: the eager first
fetch, the initial snapshot (`allData` spread from `data[dataKey]` when
the first response is a success, `[]` otherwise), the immediate terminal
return on a first-fetch failure, the first yield, and then the
`while (nextUrl)` loop. Returns (yielded snapshots, final snapshot) and
the final client state. -/
def pageGenerator (tr : Transport) (getToken : Option RefreshCb)
    (startingUrl dataKey : String) (fuel : Nat) (s : ClientState) :
    Except String (List PageState × PageState) × ClientState :=
  match handleData tr startingUrl getToken 0 s with
  | (.error msg, s₁) => (.error msg, s₁)
  | (.ok lastResponse, s₁) =>
    match lastResponse with
    | .error .. => (.ok ([], ⟨lastResponse, [], 1⟩), s₁)
    | .success _ data _ _ =>
      match data with
      | none => (.error "TypeError", s₁)
      | some p =>
        match p.collections.lookup dataKey with
        | none => (.error "TypeError", s₁)
        | some items =>
          match p.pagination with
          | none => (.error "TypeError", s₁)
          | some pg =>
            pageGeneratorLoop tr getToken dataKey fuel lastResponse pg.next items 1
              [⟨lastResponse, items, 1⟩] s₁

/-- A JavaScript `Date`'s time value: `none` is the NaN time value (the
"Invalid Date" state), `some t` a finite epoch-millisecond value. -/
abbrev JSDate := Option Int

/-- A JavaScript number that may be `NaN` (`none`). -/
abbrev JSNum := Option Int

/-- The structured date record
`{ y, m?, d?, hr?, min?, sec?, ms? }` (1-based month and day). -/
structure DateObj where
  y : Int
  m : Option Int := none
  d : Option Int := none
  hr : Option Int := none
  min : Option Int := none
  sec : Option Int := none
  ms : Option Int := none
deriving DecidableEq, Repr

/-- JavaScript `x || dflt` on an optional numeric field: an absent field
and the falsy value `0` both fall back to the default. -/
def jsOr (x : Option Int) (dflt : Int) : Int :=
  match x with
  | none => dflt
  | some v => if v = 0 then dflt else v

/-- Host (JavaScript engine) date primitives, abstracted: generic string
parsing (`new Date(string)` / `dayJs(x).toDate()`), construction from a
finite number, the 7-argument local-time constructor
`new Date(y, m0, d, hr, min, sec, ms)` (with its permissive rollover),
the current time, and `getDayStartEnd(x).start` (start of the local day
of `x`). -/
structure Host where
  parse : String → JSDate
  ofNum : Int → JSDate
  mk7 : Int → Int → Int → Int → Int → Int → Int → JSDate
  now : Int
  dayStart : Int → Int

/-- `const fromDateObj = (o) => new Date(o.y, (o.m || 1) - 1, o.d || 1,
o.hr || 0, o.min || 0, o.sec || 0, o.ms || 0)`. -/
def fromDateObj (h : Host) (o : DateObj) : JSDate :=
  h.mk7 o.y (jsOr o.m 1 - 1) (jsOr o.d 1) (jsOr o.hr 0) (jsOr o.min 0)
    (jsOr o.sec 0) (jsOr o.ms 0)

/-- The `AnyDate` input union: a `Date` instance, a string (including the
tokens `'now'`, `'today'`, `'yesterday'`), a number (possibly NaN), or a
structured `DateObj`. -/
inductive AnyDate where
  | date (d : JSDate)
  | str (s : String)
  | num (n : JSNum)
  | obj (o : DateObj)
deriving DecidableEq, Repr

/-- JavaScript `anyDate.toString()` for the members of the union: a
string is itself, `NaN.toString()` is `"NaN"`, a finite number renders in
decimal; `Date` and plain-object rendering are host presentation detail,
modelled by fixed faithful stand-ins. -/
def anyDateToString : AnyDate → String
  | .str x => x
  | .num none => "NaN"
  | .num (some v) => toString v
  | .date none => "Invalid Date"
  | .date (some t) => "Date@" ++ toString t
  | .obj _ => "[object Object]"

/-- Models the check `dt.toDateString() === 'Invalid Date'`: per the
ECMAScript spec, `toDateString` returns the literal `"Invalid Date"`
exactly when the time value is NaN. -/
def toDateStringIsInvalid (d : JSDate) : Bool := d.isNone

/-- The thrown invalid-date failure: the `console.error` line (which
embeds the offending input's string representation) together with the
message of the thrown `Error`. -/
structure DateError where
  logged : String
  message : String
deriving DecidableEq, Repr

/-- The `dt` resolution chain of `toDate` (everything before the validity
check): a `Date` instance passes through; the tokens `'now'`, `'today'`,
`'yesterday'` resolve against the clock (`days(1)` = 86400000 ms); a
number or remaining string goes to generic date construction; a plain
object goes to `fromDateObj`. -/
def resolveDate (h : Host) (a : AnyDate) : JSDate :=
  match a with
  | .date d => d
  | .str x =>
    if x = "now" then some h.now
    else if x = "today" then some (h.dayStart h.now)
    else if x = "yesterday" then some (h.dayStart (h.now - 86400000))
    else h.parse x
  | .num n =>
    match n with
    | none => none
    | some v => h.ofNum v
  | .obj o => fromDateObj h o

/-- `const toDate = (anyDate) => { ... }`: resolve, then
`if (dt.toDateString() === 'Invalid Date') { console.error(...); throw
new Error('Invalid Date'); } return dt;`. -/
def toDate (h : Host) (a : AnyDate) : Except DateError JSDate :=
  let dt := resolveDate h a
  if toDateStringIsInvalid dt = true then
    .error
      { logged := "date: \"" ++ anyDateToString a ++ "\" is an invalid date",
        message := "Invalid Date" }
  else .ok dt

/-- `nonValue(val)` from the utility library: the value is absent
(undefined/null; skipped by the fold). -/
def nonValue (v : Option String) : Bool := v.isNone

/-- `dictToUrlParams(dict)`: fold over the key/value pairs with their
enumeration index `i`, skipping non-values, appending
`` `${i ? '&' : '?'}${key}=${val}` `` for the rest. -/
def dictToUrlParams (dict : List (String × Option String)) : String :=
  dict.enum.foldl
    (fun search kv =>
      match kv with
      | (i, key, val) =>
        match val with
        | none => search
        | some v => search ++ (if i = 0 then "?" else "&") ++ key ++ "=" ++ v)
    ""

/-- The credential invariant: the installed default Authorization header
is the Bearer rendering of the current access token. -/
def headerInv (s : ClientState) : Prop :=
  s.authHeader = "Bearer " ++ s.accessToken

/-- A mock paginated payload: no `errors` key, a pagination cursor with
the given `next`, and the collection `items` stored under `dataKey`. -/
def pagePayload (dataKey : String) (items : List String) (next : String) : PJson :=
  { errors := none,
    pagination := some { limit := 0, offset := 0, sort := "asc", next := next, previous := "" },
    collections := [(dataKey, items)] }

/-- A mock successful page response carrying `pagePayload`. -/
def pageResp (dataKey : String) (items : List String) (next : String) : TResponse :=
  { ok := true, status := 200, headers := [], body := some (some (pagePayload dataKey items next)) }

/-- The classified Success for a mock page response. -/
def pageSuccess (dataKey : String) (items : List String) (next : String) : ApiResult :=
  .success 200 (some (pagePayload dataKey items next)) (pageResp dataKey items next) []

/-- The classified Failure produced for a failing response `fr`. -/
def failResult (fr : TResponse) : ApiResult :=
  .error fr.status none fr (buildHeaders fr.headers)

/-- A response that `handleData` classifies as a plain Failure: failing
status, parsed body, no `errors` key (so no refresh is attempted). -/
def failShape (fr : TResponse) : Prop :=
  fr.ok = false ∧ ∃ pf, fr.body = some (some pf) ∧ pf.errors = none

/-- A transport serving a finite chain of successful pages starting at
`url`: each page's `next` cursor is the url of the following page and the
last page's cursor is empty. -/
def Chained (tr : Transport) (dataKey : String) : String → List (List String × String) → Prop
  | url, [] => url = ""
  | url, (items, next) :: rest =>
      url ≠ "" ∧ (∀ k, tr url k = pageResp dataKey items next) ∧ Chained tr dataKey next rest

/-- A transport serving successful pages chained from `url`, with the
last cursor pointing at a url that serves the failing response `fr`. -/
def ChainedFail (tr : Transport) (dataKey : String) (fr : TResponse) :
    String → List (List String × String) → Prop
  | url, [] => url ≠ "" ∧ ∀ k, tr url k = fr
  | url, (items, next) :: rest =>
      url ≠ "" ∧ (∀ k, tr url k = pageResp dataKey items next) ∧ ChainedFail tr dataKey fr next rest

/-- The urls fetched while walking a success chain. -/
def visited : String → List (List String × String) → List String
  | _, [] => []
  | url, (_, next) :: rest => url :: visited next rest

/-- The urls fetched while walking a chain that ends at a failing url. -/
def visitedFail : String → List (List String × String) → List String
  | url, [] => [url]
  | url, (_, next) :: rest => url :: visitedFail next rest

/-- Final snapshot of a loop run over a success chain. -/
def chainFinal (lastResponse : ApiResult) (allData : List String) (totalCalls : Nat)
    (dataKey : String) (pages : List (List String × String)) : PageState :=
  match pages.getLast? with
  | none => ⟨lastResponse, allData, totalCalls⟩
  | some (it, nx) =>
      ⟨pageSuccess dataKey it nx, allData ++ (pages.map Prod.fst).flatten,
        totalCalls + pages.length⟩

/-- Recursive characterization of the indexed fold of `dictToUrlParams`
(proof helper). -/
def urlGo (i : Nat) : List (String × Option String) → String
  | [] => ""
  | (key, val) :: t =>
    match val with
    | none => urlGo (i + 1) t
    | some v => ((if i = 0 then "?" else "&") ++ key ++ "=" ++ v) ++ urlGo (i + 1) t

/-- A freshly constructed client. -/
def cState0 : ClientState := initClient "t0" "-"

/-- A parsed body with no `errors` key. -/
def pjEmpty : PJson := ⟨none, none, []⟩

/-- A parsed error body whose first entry is an expired-token error. -/
def expiredBody : PJson :=
  ⟨some [⟨"expired_token", "Access token expired"⟩], none, []⟩

/-- A 401 response carrying `expiredBody`. -/
def expiredResp : TResponse :=
  ⟨false, 401, [("content-type", "application/json")], some (some expiredBody)⟩

/-- A transport that always answers with the expired-token failure. -/
def trExpired : Transport := fun _ _ => expiredResp

/-- A refresh callback that always succeeds with a fresh token. -/
def gOk : RefreshCb := fun n => .ok ("tok" ++ toString n)

/-- A refresh callback that always throws. -/
def gBad : RefreshCb := fun _ => .error "refresh failed"

/-- A plain 404 failure with a parsed body and no `errors` key. -/
def r404 : TResponse := ⟨false, 404, [], some (some pjEmpty)⟩

/-- A transport that always answers 404. -/
def tr404 : Transport := fun _ _ => r404

/-- A parsed body carrying an *empty* `errors` list. -/
def emptyErrBody : PJson := ⟨some [], none, []⟩

/-- A 200 response whose parsed payload carries an empty `errors` list. -/
def okErrResp : TResponse := ⟨true, 200, [], some (some emptyErrBody)⟩

/-- A 403 response whose body does not parse. -/
def r403NoParse : TResponse := ⟨false, 403, [], none⟩

/-- A 500 response whose body does not parse. -/
def r500NoParse : TResponse := ⟨false, 500, [], none⟩

/-- A 204-style success whose body does not parse. -/
def r204NoParse : TResponse := ⟨true, 204, [], none⟩

def tr403 : Transport := fun _ _ => r403NoParse

def tr500 : Transport := fun _ _ => r500NoParse

def tr204 : Transport := fun _ _ => r204NoParse

/-- Three chained mock pages (2, 3 and 1 items). -/
def pages3 : List (List String × String) :=
  [(["a", "b"], "u2"), (["c", "d", "e"], "u3"), (["f"], "")]

/-- Transport serving the three chained pages. -/
def tr3 : Transport := fun u _ =>
  if u = "u1" then pageResp "sleep" ["a", "b"] "u2"
  else if u = "u2" then pageResp "sleep" ["c", "d", "e"] "u3"
  else pageResp "sleep" ["f"] ""

/-- A failing (rate-limited) response with parsed body and no `errors` key. -/
def frMid : TResponse := ⟨false, 429, [], some (some pjEmpty)⟩

/-- One successful page at `u1`, then failure. -/
def pagesF : List (List String × String) := [(["a", "b"], "u2")]

/-- Transport serving one good page then the failing response. -/
def trFail2 : Transport := fun u _ =>
  if u = "u1" then pageResp "sleep" ["a", "b"] "u2" else frMid

/-- A concrete host whose generic parse rejects everything (as on `"not a
date"`), with benign arithmetic stand-ins for the other primitives. -/
def hostW : Host :=
  ⟨fun _ => none, fun v => some v,
   fun y m d hr mi se ms => some (y + m + d + hr + mi + se + ms), 0, fun x => x⟩

/-! ## Theorems -/

theorem hd_success (tr : Transport) (url : String) (gt : Option RefreshCb) (n : Nat)
    (s : ClientState) (j : Option PJson)
    (hbody : (tr url s.callCount).body = some j)
    (hok : (tr url s.callCount).ok = true)
    (herr : jsonHasErrors j = false) :
    handleData tr url gt n s =
      (.ok (.success (tr url s.callCount).status j (tr url s.callCount)
          (buildHeaders (tr url s.callCount).headers)), bumpState url s) := by
  unfold handleData handleDataAux
  simp [hbody, hok, herr]

theorem hd_plainFail (tr : Transport) (url : String) (gt : Option RefreshCb) (n : Nat)
    (s : ClientState) (p : PJson)
    (hbody : (tr url s.callCount).body = some (some p))
    (hok : (tr url s.callCount).ok = false)
    (herr : p.errors = none) :
    handleData tr url gt n s =
      (.ok (.error (tr url s.callCount).status none (tr url s.callCount)
          (buildHeaders (tr url s.callCount).headers)), bumpState url s) := by
  unfold handleData handleDataAux
  simp [hbody, hok, herr, jsonHasErrors]

theorem hd_nullJsonFail (tr : Transport) (url : String) (gt : Option RefreshCb) (n : Nat)
    (s : ClientState)
    (hbody : (tr url s.callCount).body = some none)
    (hok : (tr url s.callCount).ok = false) :
    handleData tr url gt n s =
      (.ok (.error (tr url s.callCount).status none (tr url s.callCount)
          (buildHeaders (tr url s.callCount).headers)), bumpState url s) := by
  unfold handleData handleDataAux
  simp [hbody, hok, jsonHasErrors]

theorem hd_parseThrow (tr : Transport) (url : String) (gt : Option RefreshCb) (n : Nat)
    (s : ClientState)
    (hbody : (tr url s.callCount).body = none)
    (hok : (tr url s.callCount).ok = false)
    (hstat : (tr url s.callCount).status ≠ 500) :
    handleData tr url gt n s = (.error "Unhandled Error", bumpState url s) := by
  unfold handleData handleDataAux
  simp [hbody, hok, hstat]

theorem hd_parse500 (tr : Transport) (url : String) (gt : Option RefreshCb) (n : Nat)
    (s : ClientState)
    (hbody : (tr url s.callCount).body = none)
    (hok : (tr url s.callCount).ok = false)
    (hstat : (tr url s.callCount).status = 500) :
    handleData tr url gt n s =
      (.ok (.error 500 none (tr url s.callCount)
          (buildHeaders (tr url s.callCount).headers)), bumpState url s) := by
  unfold handleData handleDataAux
  simp [hbody, hok, hstat, jsonHasErrors]

theorem hd_parseOkNull (tr : Transport) (url : String) (gt : Option RefreshCb) (n : Nat)
    (s : ClientState)
    (hbody : (tr url s.callCount).body = none)
    (hok : (tr url s.callCount).ok = true) :
    handleData tr url gt n s =
      (.ok (.success (tr url s.callCount).status none (tr url s.callCount)
          (buildHeaders (tr url s.callCount).headers)), bumpState url s) := by
  unfold handleData handleDataAux
  simp [hbody, hok, jsonHasErrors]

theorem hd_emptyErrors (tr : Transport) (url : String) (gt : Option RefreshCb) (n : Nat)
    (s : ClientState) (p : PJson)
    (hbody : (tr url s.callCount).body = some (some p))
    (herr : p.errors = some []) :
    handleData tr url gt n s = (.error "TypeError", bumpState url s) := by
  unfold handleData handleDataAux
  simp [hbody, herr, jsonHasErrors]

theorem hd_errNoRetry (tr : Transport) (url : String) (gt : Option RefreshCb) (n : Nat)
    (s : ClientState) (p : PJson) (e : ErrEntry) (es : List ErrEntry)
    (hbody : (tr url s.callCount).body = some (some p))
    (herr : p.errors = some (e :: es))
    (hng : ¬ ((e.errorType = "expired_token" ∨ e.errorType = "invalid_token")
        ∧ gt.isSome = true ∧ n < 2)) :
    handleData tr url gt n s =
      (.ok (.error (tr url s.callCount).status (some p) (tr url s.callCount)
          (buildHeaders (tr url s.callCount).headers)), bumpState url s) := by
  unfold handleData handleDataAux
  simp [hbody, herr, jsonHasErrors, hng]

theorem hd_refreshThrows (tr : Transport) (url : String) (g : RefreshCb) (n : Nat)
    (s : ClientState) (p : PJson) (e : ErrEntry) (es : List ErrEntry) (msg : String)
    (hbody : (tr url s.callCount).body = some (some p))
    (herr : p.errors = some (e :: es))
    (hexp : e.errorType = "expired_token" ∨ e.errorType = "invalid_token")
    (hlt : n < 2)
    (hg : g n = .error msg) :
    handleData tr url (some g) n s =
      (.ok (.error (tr url s.callCount).status (some p) (tr url s.callCount)
          (buildHeaders (tr url s.callCount).headers)), bumpState url s) := by
  unfold handleData handleDataAux
  simp [hbody, herr, jsonHasErrors, hexp, hlt, hg]

theorem hd_refreshOk (tr : Transport) (url : String) (g : RefreshCb) (n : Nat)
    (s s₃ : ClientState) (p : PJson) (e : ErrEntry) (es : List ErrEntry)
    (tok : String) (v : ApiResult)
    (hbody : (tr url s.callCount).body = some (some p))
    (herr : p.errors = some (e :: es))
    (hexp : e.errorType = "expired_token" ∨ e.errorType = "invalid_token")
    (hlt : n < 2)
    (hg : g n = .ok tok)
    (hinner : handleData tr url (some g) (n + 1)
        (setAccessToken tok (bumpState url s)) = (.ok v, s₃)) :
    handleData tr url (some g) n s = (.ok v, s₃) := by
  unfold handleData at hinner
  unfold handleData handleDataAux
  rw [show 2 - n = (2 - (n + 1)) + 1 from by omega]
  simp only [hbody, herr, jsonHasErrors, hexp, hlt]
  rw [show 2 - (n + 1) = 1 - n from by omega] at hinner
  simp [hg, hinner]

theorem hd_constFail : ∀ (m n : Nat) (tr : Transport) (url : String)
    (gt : Option RefreshCb) (s : ClientState) (r : TResponse) (j : Option PJson),
    2 - n ≤ m →
    (∀ k, tr url k = r) → r.body = some j →
    (∀ p l, j = some p → p.errors = some l → l ≠ []) →
    (r.ok = false ∨ jsonHasErrors j = true) →
    ∃ c e₁ resp hs s', handleData tr url gt n s = (.ok (.error c e₁ resp hs), s') := by
  intro m
  induction m with
  | zero =>
    intro n tr url gt s r j hm htr hbody hne hcond
    rcases j with _ | p
    · have hok : r.ok = false := by simpa [jsonHasErrors] using hcond
      exact ⟨_, _, _, _, _, hd_nullJsonFail tr url gt n s (by rw [htr]; exact hbody)
        (by rw [htr]; exact hok)⟩
    · rcases hpe : p.errors with _ | l
      · have hok : r.ok = false := by
          rcases hcond with h | h
          · exact h
          · simp [jsonHasErrors, hpe] at h
        exact ⟨_, _, _, _, _, hd_plainFail tr url gt n s p (by rw [htr]; exact hbody)
          (by rw [htr]; exact hok) hpe⟩
      · rcases l with _ | ⟨e, es⟩
        · exact absurd rfl (hne p [] rfl hpe)
        · refine ⟨_, _, _, _, _, hd_errNoRetry tr url gt n s p e es
            (by rw [htr]; exact hbody) hpe ?_⟩
          intro ⟨_, _, hlt⟩
          omega
  | succ m ih =>
    intro n tr url gt s r j hm htr hbody hne hcond
    rcases j with _ | p
    · have hok : r.ok = false := by simpa [jsonHasErrors] using hcond
      exact ⟨_, _, _, _, _, hd_nullJsonFail tr url gt n s (by rw [htr]; exact hbody)
        (by rw [htr]; exact hok)⟩
    · rcases hpe : p.errors with _ | l
      · have hok : r.ok = false := by
          rcases hcond with h | h
          · exact h
          · simp [jsonHasErrors, hpe] at h
        exact ⟨_, _, _, _, _, hd_plainFail tr url gt n s p (by rw [htr]; exact hbody)
          (by rw [htr]; exact hok) hpe⟩
      · rcases l with _ | ⟨e, es⟩
        · exact absurd rfl (hne p [] rfl hpe)
        · by_cases hguard : (e.errorType = "expired_token" ∨ e.errorType = "invalid_token")
              ∧ gt.isSome = true ∧ n < 2
          · obtain ⟨hexp, hsome, hlt⟩ := hguard
            rcases gt with _ | g
            · simp at hsome
            · rcases hgn : g n with msg | tok
              · exact ⟨_, _, _, _, _, hd_refreshThrows tr url g n s p e es msg
                  (by rw [htr]; exact hbody) hpe hexp hlt hgn⟩
              · obtain ⟨c, e₁, resp, hs, s', hin⟩ :=
                  ih (n + 1) tr url (some g) (setAccessToken tok (bumpState url s)) r
                    (some p) (by omega) htr hbody hne hcond
                exact ⟨c, e₁, resp, hs, s', hd_refreshOk tr url g n s s' p e es tok _
                  (by rw [htr]; exact hbody) hpe hexp hlt hgn hin⟩
          · exact ⟨_, _, _, _, _, hd_errNoRetry tr url gt n s p e es
              (by rw [htr]; exact hbody) hpe hguard⟩

/-- Claim C1: for every transport whose every call returns a failure whose
parsed body's first error entry's kind is "expired_token" or
"invalid_token", and every supplied refresh callback that always returns a
new token without throwing, classify (handleData) starting at
attemptsSoFar = 0 terminates after exactly 3 transport calls (the initial
call plus 2 recursive retries), returns the Failure variant, and installs
a refreshed credential into the default Authorization header exactly
twice. -/
theorem C1_refresh_retry_bound (tr : Transport) (url : String) (g : RefreshCb)
    (s : ClientState)
    (htr : ∀ k, (tr url k).ok = false ∧ ∃ p e es,
        (tr url k).body = some (some p) ∧ p.errors = some (e :: es) ∧
        (e.errorType = "expired_token" ∨ e.errorType = "invalid_token"))
    (hg : ∀ n, ∃ t, g n = .ok t) :
    ∃ c err resp hs s',
      handleData tr url (some g) 0 s = (.ok (.error c err resp hs), s') ∧
      s'.callCount = s.callCount + 3 ∧
      s'.setCount = s.setCount + 2 := by
  obtain ⟨t0, hg0⟩ := hg 0
  obtain ⟨t1, hg1⟩ := hg 1
  set s1 : ClientState := setAccessToken t0 (bumpState url s) with hs1
  set s2 : ClientState := setAccessToken t1 (bumpState url s1) with hs2
  obtain ⟨hok2, p2, e2, es2, hb2, he2, hx2⟩ := htr s2.callCount
  have h2 : handleData tr url (some g) 2 s2 =
      (.ok (.error (tr url s2.callCount).status (some p2) (tr url s2.callCount)
        (buildHeaders (tr url s2.callCount).headers)), bumpState url s2) := by
    refine hd_errNoRetry tr url (some g) 2 s2 p2 e2 es2 hb2 he2 ?_
    intro ⟨_, _, hlt⟩
    omega
  obtain ⟨hok1, p1, e1, es1, hb1, he1, hx1⟩ := htr s1.callCount
  have h1 : handleData tr url (some g) 1 s1 =
      (.ok (.error (tr url s2.callCount).status (some p2) (tr url s2.callCount)
        (buildHeaders (tr url s2.callCount).headers)), bumpState url s2) :=
    hd_refreshOk tr url g 1 s1 _ p1 e1 es1 t1 _ hb1 he1 hx1 (by omega) hg1 h2
  obtain ⟨hok0, p0, e0, es0, hb0, he0, hx0⟩ := htr s.callCount
  have h0 : handleData tr url (some g) 0 s =
      (.ok (.error (tr url s2.callCount).status (some p2) (tr url s2.callCount)
        (buildHeaders (tr url s2.callCount).headers)), bumpState url s2) :=
    hd_refreshOk tr url g 0 s _ p0 e0 es0 t0 _ hb0 he0 hx0 (by omega) hg0 h1
  refine ⟨_, _, _, _, _, h0, ?_, ?_⟩
  · simp [hs2, hs1, setAccessToken, bumpState]
  · simp [hs2, hs1, setAccessToken, bumpState]

/-- Claim C6: whenever a Failure whose first error entry has an expiry kind
triggers the supplied refresh callback and that callback throws, classify
catches the exception internally (it returns normally — no exception
escapes) and returns the original Failure result — with its status code,
parsed error structure, transport handle and headers — as the reported
outcome, leaving the credential state untouched. -/
theorem C6_refresh_throw_swallowed (tr : Transport) (url : String) (g : RefreshCb)
    (s : ClientState) (p : PJson) (e : ErrEntry) (es : List ErrEntry) (msg : String)
    (hbody : (tr url s.callCount).body = some (some p))
    (herr : p.errors = some (e :: es))
    (hexp : e.errorType = "expired_token" ∨ e.errorType = "invalid_token")
    (hg : g 0 = .error msg) :
    handleData tr url (some g) 0 s =
      (.ok (.error (tr url s.callCount).status (some p) (tr url s.callCount)
          (buildHeaders (tr url s.callCount).headers)), bumpState url s) :=
  hd_refreshThrows tr url g 0 s p e es msg hbody herr hexp (by omega) hg

/-- Claim C5: for every transport response whose body fails to parse as
structured data: if the status indicates failure and is not the "internal
server error" status 500, classify throws an unrecoverable "Unhandled
Error" instead of returning an ApiResult; if the status is 500, or the
call succeeded, classify treats the parsed payload as null and continues
with normal classification (returning a Failure with a null error
structure, respectively a Success with a null payload). -/
theorem C5_unparseable_body (tr : Transport) (url : String) (gt : Option RefreshCb)
    (n : Nat) (s : ClientState)
    (hbody : (tr url s.callCount).body = none) :
    ((tr url s.callCount).ok = false → (tr url s.callCount).status ≠ 500 →
      handleData tr url gt n s = (.error "Unhandled Error", bumpState url s))
    ∧ ((tr url s.callCount).ok = false → (tr url s.callCount).status = 500 →
      handleData tr url gt n s =
        (.ok (.error 500 none (tr url s.callCount)
          (buildHeaders (tr url s.callCount).headers)), bumpState url s))
    ∧ ((tr url s.callCount).ok = true →
      handleData tr url gt n s =
        (.ok (.success (tr url s.callCount).status none (tr url s.callCount)
          (buildHeaders (tr url s.callCount).headers)), bumpState url s)) :=
  ⟨fun h₁ h₂ => hd_parseThrow tr url gt n s hbody h₁ h₂,
   fun h₁ h₂ => hd_parse500 tr url gt n s hbody h₁ h₂,
   fun h₁ => hd_parseOkNull tr url gt n s hbody h₁⟩

/-- Claim C2 (amended): for every completed call whose body parses as
structured data, and whose error list — when the payload carries one — is
non-empty, classify returns the Failure variant if and only if the
transport status indicates failure or the parsed payload carries an
error-list field; a success-status response without that field is
classified as Success carrying the parsed payload, status code, transport
handle and header mapping. (The non-emptiness proviso is forced by the
counterexample C2_empty_errors_throws: on a payload with an empty error
list the classifier throws instead of returning a Failure.) -/
theorem C2_classification_iff (tr : Transport) (url : String) (gt : Option RefreshCb)
    (s : ClientState) (r : TResponse) (j : Option PJson)
    (htr : ∀ k, tr url k = r) (hbody : r.body = some j)
    (hne : ∀ p l, j = some p → p.errors = some l → l ≠ []) :
    ((∃ c e₁ resp hs s', handleData tr url gt 0 s = (.ok (.error c e₁ resp hs), s'))
      ↔ (r.ok = false ∨ jsonHasErrors j = true))
    ∧ (r.ok = true → jsonHasErrors j = false →
        handleData tr url gt 0 s =
          (.ok (.success r.status j r (buildHeaders r.headers)), bumpState url s)) := by
  have hsucc : r.ok = true → jsonHasErrors j = false →
      handleData tr url gt 0 s =
        (.ok (.success r.status j r (buildHeaders r.headers)), bumpState url s) := by
    intro hok herr
    have h := hd_success tr url gt 0 s j (by rw [htr]; exact hbody) (by rw [htr]; exact hok) herr
    rw [htr] at h
    exact h
  refine ⟨⟨?_, ?_⟩, hsucc⟩
  · intro ⟨c, e₁, resp, hs, s', hres⟩
    by_contra hcon
    push_neg at hcon
    obtain ⟨hok, herr⟩ := hcon
    rw [hsucc (by simpa using hok) (by simpa using herr)] at hres
    simp at hres
  · intro hcond
    exact hd_constFail 2 0 tr url gt s r j (by omega) htr hbody hne hcond

theorem headerInv_bumpState (url : String) (s : ClientState) (h : headerInv s) :
    headerInv (bumpState url s) := h

theorem headerInv_setAccessToken (t : String) (s : ClientState) :
    headerInv (setAccessToken t s) := rfl

theorem handleDataAux_headerInv : ∀ (fuel n : Nat) (tr : Transport) (url : String)
    (gt : Option RefreshCb) (s : ClientState), headerInv s →
    headerInv (handleDataAux tr url gt fuel n s).2 := by
  intro fuel
  induction fuel with
  | zero =>
    intro n tr url gt s hinv
    have hbump : headerInv (bumpState url s) := hinv
    unfold handleDataAux
    rcases hb : (tr url s.callCount).body with _ | j
    · by_cases hok : (tr url s.callCount).ok = false ∧ (tr url s.callCount).status ≠ 500
      · simpa [hb, hok] using hbump
      · by_cases hcond : (tr url s.callCount).ok = false ∨ jsonHasErrors none = true
        · simpa [hb, hok, hcond] using hbump
        · simpa [hb, hok, hcond] using hbump
    · by_cases hcond : (tr url s.callCount).ok = false ∨ jsonHasErrors j = true
      · rcases j with _ | p
        · simpa [hb, hcond] using hbump
        · rcases hpe : p.errors with _ | (_ | ⟨e, es⟩)
          · simpa [hb, hcond, hpe] using hbump
          · simpa [hb, hcond, hpe] using hbump
          · by_cases hg : (e.errorType = "expired_token" ∨ e.errorType = "invalid_token")
                ∧ gt.isSome = true ∧ n < 2
            · obtain ⟨hexp, hsome, hlt⟩ := hg
              rcases gt with _ | g
              · simp at hsome
              · rcases hgn : g n with msg | tok
                · simpa [hb, hcond, hpe, hexp, hlt, hgn] using hbump
                · simpa [hb, hcond, hpe, hexp, hlt, hgn] using
                    headerInv_setAccessToken tok (bumpState url s)
            · simpa [hb, hcond, hpe, hg] using hbump
      · simpa [hb, hcond] using hbump
  | succ fuel ih =>
    intro n tr url gt s hinv
    have hbump : headerInv (bumpState url s) := hinv
    unfold handleDataAux
    rcases hb : (tr url s.callCount).body with _ | j
    · by_cases hok : (tr url s.callCount).ok = false ∧ (tr url s.callCount).status ≠ 500
      · simpa [hb, hok] using hbump
      · by_cases hcond : (tr url s.callCount).ok = false ∨ jsonHasErrors none = true
        · simpa [hb, hok, hcond] using hbump
        · simpa [hb, hok, hcond] using hbump
    · by_cases hcond : (tr url s.callCount).ok = false ∨ jsonHasErrors j = true
      · rcases j with _ | p
        · simpa [hb, hcond] using hbump
        · rcases hpe : p.errors with _ | (_ | ⟨e, es⟩)
          · simpa [hb, hcond, hpe] using hbump
          · simpa [hb, hcond, hpe] using hbump
          · by_cases hg : (e.errorType = "expired_token" ∨ e.errorType = "invalid_token")
                ∧ gt.isSome = true ∧ n < 2
            · obtain ⟨hexp, hsome, hlt⟩ := hg
              rcases gt with _ | g
              · simp at hsome
              · rcases hgn : g n with msg | tok
                · simpa [hb, hcond, hpe, hexp, hlt, hgn] using hbump
                · rcases hres : handleDataAux tr url (some g) fuel (n + 1)
                      (setAccessToken tok (bumpState url s)) with ⟨res, s₃⟩
                  have h₃ := ih (n + 1) tr url (some g) _
                    (headerInv_setAccessToken tok (bumpState url s))
                  rw [hres] at h₃
                  rcases res with msg₁ | v
                  · simpa [hb, hcond, hpe, hexp, hlt, hgn, hres] using h₃
                  · simpa [hb, hcond, hpe, hexp, hlt, hgn, hres] using h₃
            · simpa [hb, hcond, hpe, hg] using hbump
      · simpa [hb, hcond] using hbump

theorem handleData_headerInv (tr : Transport) (url : String) (gt : Option RefreshCb)
    (n : Nat) (s : ClientState) (h : headerInv s) :
    headerInv (handleData tr url gt n s).2 :=
  handleDataAux_headerInv (2 - n) n tr url gt s h

theorem pageGeneratorLoop_headerInv : ∀ (fuel : Nat) (tr : Transport)
    (gt : Option RefreshCb) (dataKey : String) (lastResponse : ApiResult)
    (nextUrl : String) (allData : List String) (totalCalls : Nat)
    (yields : List PageState) (s : ClientState), headerInv s →
    headerInv (pageGeneratorLoop tr gt dataKey fuel lastResponse nextUrl allData
      totalCalls yields s).2 := by
  intro fuel
  induction fuel with
  | zero =>
    intro tr gt dataKey lastResponse nextUrl allData totalCalls yields s hinv
    unfold pageGeneratorLoop
    by_cases hnu : nextUrl = "" <;> simpa [hnu] using hinv
  | succ fuel ih =>
    intro tr gt dataKey lastResponse nextUrl allData totalCalls yields s hinv
    unfold pageGeneratorLoop
    by_cases hnu : nextUrl = ""
    · simpa [hnu] using hinv
    · rcases hhd : handleData tr nextUrl gt 0 s with ⟨res, s₁⟩
      have h₁ := handleData_headerInv tr nextUrl gt 0 s hinv
      rw [hhd] at h₁
      rcases res with msg | next
      · simpa [hnu, hhd] using h₁
      · rcases next with ⟨c, er, resp, hs⟩ | ⟨c, data, resp, hs⟩
        · simpa [hnu, hhd] using h₁
        · rcases data with _ | p
          · simpa [hnu, hhd] using h₁
          · rcases hpag : p.pagination with _ | pg
            · simpa [hnu, hhd, hpag] using h₁
            · rcases hlk : p.collections.lookup dataKey with _ | items
              · simpa [hnu, hhd, hpag, hlk] using h₁
              · by_cases hnx : pg.next = ""
                · simpa [hnu, hhd, hpag, hlk, hnx] using h₁
                · simpa [hnu, hhd, hpag, hlk, hnx] using
                    ih tr gt dataKey _ pg.next (allData ++ items) (totalCalls + 1) _ s₁ h₁

theorem pageGenerator_headerInv (tr : Transport) (gt : Option RefreshCb)
    (startingUrl dataKey : String) (fuel : Nat) (s : ClientState) (hinv : headerInv s) :
    headerInv (pageGenerator tr gt startingUrl dataKey fuel s).2 := by
  unfold pageGenerator
  rcases hhd : handleData tr startingUrl gt 0 s with ⟨res, s₁⟩
  have h₁ := handleData_headerInv tr startingUrl gt 0 s hinv
  rw [hhd] at h₁
  rcases res with msg | lastResponse
  · simpa [hhd] using h₁
  · rcases lastResponse with ⟨c, er, resp, hs⟩ | ⟨c, data, resp, hs⟩
    · simpa [hhd] using h₁
    · rcases data with _ | p
      · simpa [hhd] using h₁
      · rcases hlk : p.collections.lookup dataKey with _ | items
        · simpa [hhd, hlk] using h₁
        · rcases hpag : p.pagination with _ | pg
          · simpa [hhd, hlk, hpag] using h₁
          · simpa [hhd, hlk, hpag] using
              pageGeneratorLoop_headerInv fuel tr gt dataKey _ pg.next items 1 _ s₁ h₁

/-- Claim C9: the client's credential invariant — the default
Authorization header equals "Bearer " followed by the current accessToken
field — is established by setAccessToken and by construction, is preserved
by every handleData call (including those that take the credential-refresh
path) and every page walk, and getApiInfo returns the current (most
recently installed) accessToken. -/
theorem C9_credential_invariant :
    (∀ t s, headerInv (setAccessToken t s) ∧ (getApiInfo (setAccessToken t s)).1 = t)
    ∧ (∀ tok uid, headerInv (initClient tok uid)
        ∧ (getApiInfo (initClient tok uid)).1 = tok)
    ∧ (∀ tr url gt n s, headerInv s → headerInv (handleData tr url gt n s).2)
    ∧ (∀ tr gt startingUrl dataKey fuel s, headerInv s →
        headerInv (pageGenerator tr gt startingUrl dataKey fuel s).2) :=
  ⟨fun t s => ⟨headerInv_setAccessToken t s, rfl⟩,
   fun tok _uid => ⟨headerInv_setAccessToken tok _, rfl⟩,
   handleData_headerInv,
   fun tr gt startingUrl dataKey fuel s h =>
     pageGenerator_headerInv tr gt startingUrl dataKey fuel s h⟩

theorem hd_pageResp (tr : Transport) (url : String) (gt : Option RefreshCb) (n : Nat)
    (s : ClientState) (dataKey : String) (items : List String) (next : String)
    (htr : tr url s.callCount = pageResp dataKey items next) :
    handleData tr url gt n s = (.ok (pageSuccess dataKey items next), bumpState url s) := by
  have h := hd_success tr url gt n s (some (pagePayload dataKey items next))
    (by rw [htr]; rfl) (by rw [htr]; rfl) (by simp [jsonHasErrors, pagePayload])
  rw [htr] at h
  simpa [pageResp, pageSuccess, buildHeaders, pagePayload] using h

theorem hd_failShape (tr : Transport) (url : String) (gt : Option RefreshCb) (n : Nat)
    (s : ClientState) (fr : TResponse)
    (htr : tr url s.callCount = fr) (hfr : failShape fr) :
    handleData tr url gt n s = (.ok (failResult fr), bumpState url s) := by
  obtain ⟨hok, pf, hbody, hpe⟩ := hfr
  have h := hd_plainFail tr url gt n s pf (by rw [htr]; exact hbody) (by rw [htr]; exact hok) hpe
  rw [htr] at h
  exact h

theorem chained_getLast (tr : Transport) (dataKey : String) :
    ∀ (pages : List (List String × String)) (url : String),
    Chained tr dataKey url pages →
    ∀ li ln, pages.getLast? = some (li, ln) → ln = "" := by
  intro pages
  induction pages with
  | nil => intro url _ li ln h; simp at h
  | cons a rest ih =>
    intro url hch li ln h
    rcases a with ⟨items, next⟩
    rcases rest with _ | ⟨b, t⟩
    · simp at h
      obtain ⟨_, _, hn⟩ := hch
      rw [← h.2]
      exact hn
    · rw [List.getLast?_cons_cons] at h
      exact ih next hch.2.2 li ln h

theorem chainedFail_ne (tr : Transport) (dataKey : String) (fr : TResponse) :
    ∀ (pages : List (List String × String)) (url : String),
    ChainedFail tr dataKey fr url pages → url ≠ "" := by
  intro pages url hch
  rcases pages with _ | ⟨a, rest⟩
  · exact hch.1
  · rcases a with ⟨items, next⟩
    exact hch.1

theorem chainFinal_cons (lastResponse lastResponse' : ApiResult) (allData : List String)
    (totalCalls : Nat) (dataKey : String) (it : List String) (nx : String)
    (b : List String × String) (t : List (List String × String)) :
    chainFinal lastResponse' (allData ++ it) (totalCalls + 1) dataKey (b :: t) =
      chainFinal lastResponse allData totalCalls dataKey ((it, nx) :: b :: t) := by
  unfold chainFinal
  rw [List.getLast?_cons_cons]
  rcases h : (b :: t).getLast? with _ | ⟨li, ln⟩
  · simp at h
  · simp [List.append_assoc]
    omega

theorem pageLoop_chained : ∀ (pages : List (List String × String)) (tr : Transport)
    (gt : Option RefreshCb) (dataKey : String) (fuel : Nat) (lastResponse : ApiResult)
    (url : String) (allData : List String) (totalCalls : Nat) (yields : List PageState)
    (s : ClientState),
    Chained tr dataKey url pages → pages.length ≤ fuel →
    ∃ yields' s',
      pageGeneratorLoop tr gt dataKey fuel lastResponse url allData totalCalls yields s
        = (.ok (yields', chainFinal lastResponse allData totalCalls dataKey pages), s')
      ∧ s'.callCount = s.callCount + pages.length
      ∧ s'.urlsCalled = s.urlsCalled ++ visited url pages := by
  intro pages
  induction pages with
  | nil =>
    intro tr gt dataKey fuel lastResponse url allData totalCalls yields s hch hfuel
    have hurl : url = "" := hch
    refine ⟨yields, s, ?_, by simp, by simp [visited]⟩
    unfold pageGeneratorLoop
    simp [hurl, chainFinal]
  | cons a rest ih =>
    intro tr gt dataKey fuel lastResponse url allData totalCalls yields s hch hfuel
    rcases a with ⟨it, nx⟩
    obtain ⟨hurl, htr, hrest⟩ := hch
    obtain ⟨fuel', rfl⟩ : ∃ f, fuel = f + 1 := by
      rcases fuel with _ | f
      · simp at hfuel
      · exact ⟨f, rfl⟩
    have hhd := hd_pageResp tr url gt 0 s dataKey it nx (htr s.callCount)
    rcases rest with _ | ⟨b, t⟩
    · -- last page: its cursor is empty
      have hnx : nx = "" := hrest
      refine ⟨yields, bumpState url s, ?_, by simp [bumpState], ?_⟩
      · unfold pageGeneratorLoop
        simp only [hurl, if_neg, hhd]
        simp [pageSuccess, pagePayload, hnx, chainFinal, hurl]
      · simp [bumpState, visited, hnx]
    · -- middle page: cursor points at the next page
      have hnx : nx ≠ "" := hrest.1
      obtain ⟨yields', s', heq, hcc, hu⟩ :=
        ih tr gt dataKey fuel' (pageSuccess dataKey it nx) nx (allData ++ it)
          (totalCalls + 1) (yields ++ [⟨pageSuccess dataKey it nx, allData ++ it, totalCalls + 1⟩])
          (bumpState url s) hrest (by simpa using Nat.le_of_succ_le_succ hfuel)
      refine ⟨yields', s', ?_, ?_, ?_⟩
      · unfold pageGeneratorLoop
        simp only [hurl, hhd]
        rw [chainFinal_cons lastResponse (pageSuccess dataKey it nx) allData totalCalls
          dataKey it nx b t] at heq
        simp only [pageSuccess, pagePayload] at heq ⊢
        simp [hnx, hurl, heq]
      · simp [bumpState] at hcc
        simp [hcc]
        omega
      · simp [bumpState] at hu
        simp [hu, visited]

/-- Claim C3: for every finite page walk of n pages where pages 1..n-1 are
Successes with a non-empty pagination cursor and page n is a Success with
an empty cursor, fully consuming the sequence produced by producePages
(pageGenerator) ends in a terminal state whose allData is the
concatenation of all pages' collection items in arrival order, whose
totalCalls equals n, and whose last response's cursor is empty; pages are
fetched strictly in the order given by each response's cursor (the urls
called are exactly the chain's urls, in order). -/
theorem C3_page_walk_accumulation (tr : Transport) (gt : Option RefreshCb)
    (dataKey url : String) (pages : List (List String × String)) (fuel : Nat)
    (s : ClientState)
    (hch : Chained tr dataKey url pages) (hne : pages ≠ [])
    (hfuel : pages.length ≤ fuel) :
    ∃ yields' s' lastItems,
      pageGenerator tr gt url dataKey fuel s
        = (.ok (yields',
            ⟨pageSuccess dataKey lastItems "", (pages.map Prod.fst).flatten, pages.length⟩), s')
      ∧ pages.getLast? = some (lastItems, "")
      ∧ s'.callCount = s.callCount + pages.length
      ∧ s'.urlsCalled = s.urlsCalled ++ visited url pages := by
  rcases pages with _ | ⟨⟨it, nx⟩, rest⟩
  · exact absurd rfl hne
  · obtain ⟨hurl, htr, hrest⟩ := hch
    have hhd := hd_pageResp tr url gt 0 s dataKey it nx (htr s.callCount)
    obtain ⟨yields', s', heq, hcc, hu⟩ :=
      pageLoop_chained rest tr gt dataKey fuel (pageSuccess dataKey it nx) nx it 1
        [⟨pageSuccess dataKey it nx, it, 1⟩] (bumpState url s) hrest (by simp at hfuel; omega)
    rcases rest with _ | ⟨b, t⟩
    · have hnx : nx = "" := hrest
      subst hnx
      refine ⟨yields', s', it, ?_, by simp, by simp [bumpState] at hcc ⊢; omega, ?_⟩
      · unfold pageGenerator
        rw [hhd]
        unfold chainFinal at heq
        simp only [pageSuccess, pagePayload] at heq ⊢
        simp at heq
        simp [heq]
      · simp [bumpState] at hu
        simp [hu, visited]
    · obtain ⟨li, ln, hlast⟩ : ∃ li ln, (b :: t).getLast? = some (li, ln) := by
        rcases hl : (b :: t).getLast? with _ | ⟨li, ln⟩
        · simp at hl
        · exact ⟨li, ln, rfl⟩
      have hln : ln = "" := chained_getLast tr dataKey (b :: t) nx hrest li ln hlast
      have hnx : nx ≠ "" := hrest.1
      refine ⟨yields', s', li, ?_, ?_, by simp [bumpState] at hcc ⊢; omega, ?_⟩
      · unfold pageGenerator
        rw [hhd]
        unfold chainFinal at heq
        rw [hlast] at heq
        simp only [pageSuccess, pagePayload] at heq ⊢
        simp [hln] at heq
        simp [heq, hln]
        omega
      · rw [List.getLast?_cons_cons, hlast, hln]
      · simp [bumpState] at hu
        simp [hu, visited]

theorem pageLoop_chainedFail : ∀ (pages : List (List String × String)) (tr : Transport)
    (gt : Option RefreshCb) (dataKey : String) (fr : TResponse) (fuel : Nat)
    (lastResponse : ApiResult) (url : String) (allData : List String) (totalCalls : Nat)
    (yields : List PageState) (s : ClientState),
    ChainedFail tr dataKey fr url pages → failShape fr → pages.length < fuel →
    ∃ extra s',
      pageGeneratorLoop tr gt dataKey fuel lastResponse url allData totalCalls yields s
        = (.ok (yields ++ extra,
            ⟨failResult fr, allData ++ (pages.map Prod.fst).flatten,
              totalCalls + pages.length + 1⟩), s')
      ∧ (∀ y ∈ extra, y.lastResponse.isSuccess = true)
      ∧ s'.callCount = s.callCount + pages.length + 1
      ∧ s'.urlsCalled = s.urlsCalled ++ visitedFail url pages := by
  intro pages
  induction pages with
  | nil =>
    intro tr gt dataKey fr fuel lastResponse url allData totalCalls yields s hch hfr hfuel
    obtain ⟨hurl, htr⟩ := hch
    obtain ⟨fuel', rfl⟩ : ∃ f, fuel = f + 1 := by
      rcases fuel with _ | f
      · simp at hfuel
      · exact ⟨f, rfl⟩
    have hhd := hd_failShape tr url gt 0 s fr (htr s.callCount) hfr
    refine ⟨[], bumpState url s, ?_, by simp, by simp [bumpState], by simp [bumpState, visitedFail]⟩
    unfold pageGeneratorLoop
    simp only [hurl, hhd, failResult]
    simp
  | cons a rest ih =>
    intro tr gt dataKey fr fuel lastResponse url allData totalCalls yields s hch hfr hfuel
    rcases a with ⟨it, nx⟩
    obtain ⟨hurl, htr, hrest⟩ := hch
    obtain ⟨fuel', rfl⟩ : ∃ f, fuel = f + 1 := by
      rcases fuel with _ | f
      · simp at hfuel
      · exact ⟨f, rfl⟩
    have hhd := hd_pageResp tr url gt 0 s dataKey it nx (htr s.callCount)
    have hnx : nx ≠ "" := chainedFail_ne tr dataKey fr rest nx hrest
    obtain ⟨extra, s', heq, hsucc, hcc, hu⟩ :=
      ih tr gt dataKey fr fuel' (pageSuccess dataKey it nx) nx (allData ++ it)
        (totalCalls + 1)
        (yields ++ [⟨pageSuccess dataKey it nx, allData ++ it, totalCalls + 1⟩])
        (bumpState url s) hrest hfr (by simp at hfuel; omega)
    refine ⟨⟨pageSuccess dataKey it nx, allData ++ it, totalCalls + 1⟩ :: extra, s', ?_, ?_, ?_, ?_⟩
    · unfold pageGeneratorLoop
      simp only [hurl, hhd]
      simp only [pageSuccess, pagePayload] at heq ⊢
      simp [hnx, hurl] at heq ⊢
      simp [heq]
      omega
    · intro y hy
      rcases List.mem_cons.mp hy with hy | hy
      · subst hy
        rfl
      · exact hsucc y hy
    · simp [bumpState] at hcc ⊢
      omega
    · simp [bumpState] at hu
      simp [hu, visitedFail]

/-- Claim C4: for every page walk in which the k-th fetch (k = pages.length
+ 1 here, with pages the successful prefix) is classified as a Failure,
producePages performs no fetch after k (the call count and url log grow by
exactly k), and its terminal state — returned as the final value, never
yielded as an intermediate step (every yielded state is a Success) —
carries that Failure as lastResponse together with exactly the items
accumulated from the k-1 preceding successful pages. -/
theorem C4_page_walk_failure (tr : Transport) (gt : Option RefreshCb)
    (dataKey url : String) (pages : List (List String × String)) (fr : TResponse)
    (fuel : Nat) (s : ClientState)
    (hch : ChainedFail tr dataKey fr url pages) (hfr : failShape fr)
    (hfuel : pages.length ≤ fuel) :
    ∃ yields' s',
      pageGenerator tr gt url dataKey fuel s
        = (.ok (yields',
            ⟨failResult fr, (pages.map Prod.fst).flatten, pages.length + 1⟩), s')
      ∧ (∀ y ∈ yields', y.lastResponse.isSuccess = true)
      ∧ s'.callCount = s.callCount + pages.length + 1
      ∧ s'.urlsCalled = s.urlsCalled ++ visitedFail url pages := by
  rcases pages with _ | ⟨⟨it, nx⟩, rest⟩
  · obtain ⟨hurl, htr⟩ := hch
    have hhd := hd_failShape tr url gt 0 s fr (htr s.callCount) hfr
    refine ⟨[], bumpState url s, ?_, by simp, by simp [bumpState], by simp [bumpState, visitedFail]⟩
    unfold pageGenerator
    rw [hhd]
    simp [failResult]
  · obtain ⟨hurl, htr, hrest⟩ := hch
    have hhd := hd_pageResp tr url gt 0 s dataKey it nx (htr s.callCount)
    have hnx : nx ≠ "" := chainedFail_ne tr dataKey fr rest nx hrest
    obtain ⟨extra, s', heq, hsucc, hcc, hu⟩ :=
      pageLoop_chainedFail rest tr gt dataKey fr fuel (pageSuccess dataKey it nx) nx it 1
        [⟨pageSuccess dataKey it nx, it, 1⟩] (bumpState url s) hrest hfr
        (by simp at hfuel ⊢; omega)
    refine ⟨⟨pageSuccess dataKey it nx, it, 1⟩ :: extra, s', ?_, ?_, ?_, ?_⟩
    · unfold pageGenerator
      rw [hhd]
      simp only [pageSuccess, pagePayload] at heq ⊢
      simp [hnx] at heq ⊢
      simp [heq]
      omega
    · intro y hy
      rcases List.mem_cons.mp hy with hy | hy
      · subst hy
        rfl
      · exact hsucc y hy
    · simp [bumpState] at hcc ⊢
      omega
    · simp [bumpState] at hu
      simp [hu, visitedFail]

/-- Claim C7: for every input that does not resolve to a valid calendar
date — for example the string "not a date" or the number NaN — normalize
(toDate) fails with the invalid-date error carrying the original input's
string representation (in the logged line) and the thrown "Invalid Date"
message, and returns no instant. -/
theorem C7_invalid_date_rejected (h : Host) (a : AnyDate)
    (hres : resolveDate h a = none) :
    toDate h a = .error
      { logged := "date: \"" ++ anyDateToString a ++ "\" is an invalid date",
        message := "Invalid Date" } := by
  unfold toDate
  simp [hres, toDateStringIsInvalid]

/-- Claim C8: normalize applied to the structured record with only the
year 2021 equals normalize applied to the record with the explicit
defaults month 1, day 1, hour 0, minute 0, second 0, millisecond 0; and in
general each omitted month/day field behaves as 1 and each omitted time
field behaves as 0 in the constructed instant. -/
theorem C8_date_obj_defaults (h : Host) :
    toDate h (.obj ⟨2021, none, none, none, none, none, none⟩) =
      toDate h (.obj ⟨2021, some 1, some 1, some 0, some 0, some 0, some 0⟩)
    ∧ (∀ y d hr mi se ms, fromDateObj h ⟨y, none, d, hr, mi, se, ms⟩
        = fromDateObj h ⟨y, some 1, d, hr, mi, se, ms⟩)
    ∧ (∀ y m hr mi se ms, fromDateObj h ⟨y, m, none, hr, mi, se, ms⟩
        = fromDateObj h ⟨y, m, some 1, hr, mi, se, ms⟩)
    ∧ (∀ y m d mi se ms, fromDateObj h ⟨y, m, d, none, mi, se, ms⟩
        = fromDateObj h ⟨y, m, d, some 0, mi, se, ms⟩)
    ∧ (∀ y m d hr se ms, fromDateObj h ⟨y, m, d, hr, none, se, ms⟩
        = fromDateObj h ⟨y, m, d, hr, some 0, se, ms⟩)
    ∧ (∀ y m d hr mi ms, fromDateObj h ⟨y, m, d, hr, mi, none, ms⟩
        = fromDateObj h ⟨y, m, d, hr, mi, some 0, ms⟩)
    ∧ (∀ y m d hr mi se, fromDateObj h ⟨y, m, d, hr, mi, se, none⟩
        = fromDateObj h ⟨y, m, d, hr, mi, se, some 0⟩) :=
  ⟨rfl, fun _ _ _ _ _ _ => rfl, fun _ _ _ _ _ _ => rfl, fun _ _ _ _ _ _ => rfl,
   fun _ _ _ _ _ _ => rfl, fun _ _ _ _ _ _ => rfl, fun _ _ _ _ _ _ => rfl⟩

theorem string_data_append (a b : String) : (a ++ b).data = a.data ++ b.data := by
  cases a
  cases b
  rfl

theorem dictToUrlParams_foldl : ∀ (t : List (String × Option String)) (i : Nat) (acc : String),
    (List.enumFrom i t).foldl
      (fun search kv =>
        match kv with
        | (i, key, val) =>
          match val with
          | none => search
          | some v => search ++ (if i = 0 then "?" else "&") ++ key ++ "=" ++ v)
      acc = acc ++ urlGo i t := by
  intro t
  induction t with
  | nil => intro i acc; simp [urlGo]
  | cons kv t ih =>
    intro i acc
    rcases kv with ⟨key, val⟩
    rcases val with _ | v
    · simp only [List.enumFrom, List.foldl, urlGo]
      exact ih (i + 1) acc
    · simp only [List.enumFrom, List.foldl, urlGo]
      rw [ih (i + 1) (acc ++ (if i = 0 then "?" else "&") ++ key ++ "=" ++ v)]
      simp [String.append_assoc]

theorem dictToUrlParams_eq_urlGo (dict : List (String × Option String)) :
    dictToUrlParams dict = urlGo 0 dict := by
  unfold dictToUrlParams
  rw [show dict.enum = List.enumFrom 0 dict from rfl]
  rw [dictToUrlParams_foldl dict 0 ""]
  simp [String.empty_append]

theorem urlGo_head : ∀ (t : List (String × Option String)) (i : Nat), i ≠ 0 →
    (∃ kv ∈ t, kv.2.isSome = true) →
    ((urlGo i t).data.head? = some '&') := by
  intro t
  induction t with
  | nil =>
    intro i hi hex
    simp at hex
  | cons kv t ih =>
    intro i hi hex
    rcases kv with ⟨key, val⟩
    rcases val with _ | v
    · refine ih (i + 1) (by omega) ?_
      rcases hex with ⟨kv₁, hmem, hsome⟩
      rcases List.mem_cons.mp hmem with h | h
      · rw [h] at hsome
        simp at hsome
      · exact ⟨kv₁, h, hsome⟩
    · show ((((if i = 0 then "?" else "&") ++ key ++ "=" ++ v) ++ urlGo (i + 1) t).data).head? = some '&'
      rw [if_neg hi]
      simp [string_data_append]

theorem urlGo_no_question : ∀ (t : List (String × Option String)) (i : Nat), i ≠ 0 →
    (∀ kv ∈ t, '?' ∉ kv.1.data ∧ '?' ∉ (kv.2.getD "").data) →
    '?' ∉ (urlGo i t).data := by
  intro t
  induction t with
  | nil =>
    intro i hi hcl
    simp [urlGo]
  | cons kv t ih =>
    intro i hi hcl
    rcases kv with ⟨key, val⟩
    have hkey : '?' ∉ key.data := (hcl (key, val) (List.mem_cons_self _ _)).1
    have htail : ∀ kv ∈ t, '?' ∉ kv.1.data ∧ '?' ∉ (kv.2.getD "").data :=
      fun kv h => hcl kv (List.mem_cons_of_mem _ h)
    rcases hval : val with _ | v
    · show '?' ∉ (urlGo (i + 1) t).data
      exact ih (i + 1) (by omega) htail
    · have hv : '?' ∉ v.data := by
        have h₀ := (hcl (key, val) (List.mem_cons_self _ _)).2
        rw [hval] at h₀
        simpa using h₀
      show '?' ∉ ((((if i = 0 then "?" else "&") ++ key ++ "=" ++ v) ++ urlGo (i + 1) t).data)
      rw [if_neg hi]
      simp only [string_data_append, List.mem_append]
      push_neg
      refine ⟨⟨⟨⟨by decide, hkey⟩, by decide⟩, hv⟩, ih (i + 1) (by omega) htail⟩

/-- Claim C10, counterexample: the claim "the returned string begins with
an ampersand and contains no question mark" fails as stated, because a key
(or value) may itself contain a question mark: on the dictionary whose
first key holds a null value and whose second key is "b?", the result
"&b?=1" contains a question mark. -/
theorem C10_counterexample :
    nonValue (none : Option String) = true
    ∧ nonValue (some "1") = false
    ∧ dictToUrlParams [("a", none), ("b?", some "1")] = "&b?=1"
    ∧ '?' ∈ (dictToUrlParams [("a", none), ("b?", some "1")]).data :=
  ⟨rfl, rfl, rfl, by decide⟩

/-- Claim C10 (amended): dictToUrlParams prefixes an entry with a question
mark only when that entry sits at index 0 of the enumeration order, even
when entries are skipped for holding null/undefined values: for the empty
dictionary it returns the empty string, and for every dictionary whose
first enumerated key holds a null/undefined value while some later key
holds a defined value — provided keys and defined values themselves
contain no question-mark character, the restriction forced by the
counterexample — the returned string begins with an ampersand and contains
no question mark. -/
theorem C10_query_prefix (k : String) (v₀ : Option String)
    (rest : List (String × Option String))
    (h₀ : nonValue v₀ = true)
    (hlater : ∃ kv ∈ rest, nonValue kv.2 = false)
    (hclean : ∀ kv ∈ ((k, v₀) :: rest), '?' ∉ kv.1.data ∧ '?' ∉ (kv.2.getD "").data) :
    dictToUrlParams [] = ""
    ∧ (dictToUrlParams ((k, v₀) :: rest)).data.head? = some '&'
    ∧ '?' ∉ (dictToUrlParams ((k, v₀) :: rest)).data := by
  have hv₀ : v₀ = none := by
    rcases v₀ with _ | v
    · rfl
    · simp [nonValue] at h₀
  subst hv₀
  have hstep : dictToUrlParams ((k, none) :: rest) = urlGo 1 rest := by
    rw [dictToUrlParams_eq_urlGo]
    rfl
  have hlater' : ∃ kv ∈ rest, kv.2.isSome = true := by
    obtain ⟨kv, hm, hnv⟩ := hlater
    refine ⟨kv, hm, ?_⟩
    rcases h : kv.2 with _ | v
    · rw [h] at hnv
      simp [nonValue] at hnv
    · rfl
  have htail : ∀ kv ∈ rest, '?' ∉ kv.1.data ∧ '?' ∉ (kv.2.getD "").data :=
    fun kv h => hclean kv (List.mem_cons_of_mem _ h)
  refine ⟨rfl, ?_, ?_⟩
  · rw [hstep]
    exact urlGo_head rest 1 (by omega) hlater'
  · rw [hstep]
    exact urlGo_no_question rest 1 (by omega) htail

/-- Witness for C1 at a concrete transport, callback and client state. -/
theorem C1_refresh_retry_bound_witness :
    (∀ k, (trExpired "u" k).ok = false ∧ ∃ p e es,
        (trExpired "u" k).body = some (some p) ∧ p.errors = some (e :: es) ∧
        (e.errorType = "expired_token" ∨ e.errorType = "invalid_token"))
    ∧ (∀ n, ∃ t, gOk n = .ok t)
    ∧ ∃ c err resp hs s',
        handleData trExpired "u" (some gOk) 0 cState0 = (.ok (.error c err resp hs), s')
        ∧ s'.callCount = cState0.callCount + 3
        ∧ s'.setCount = cState0.setCount + 2 :=
  ⟨fun _ => ⟨rfl, expiredBody, ⟨"expired_token", "Access token expired"⟩, [], rfl, rfl, Or.inl rfl⟩,
   fun n => ⟨"tok" ++ toString n, rfl⟩,
   C1_refresh_retry_bound trExpired "u" gOk cState0
     (fun _ => ⟨rfl, expiredBody, ⟨"expired_token", "Access token expired"⟩, [], rfl, rfl, Or.inl rfl⟩)
     (fun n => ⟨"tok" ++ toString n, rfl⟩)⟩

/-- Witness for C2 (amended) at a concrete 404 response. -/
theorem C2_classification_iff_witness :
    (∀ k, tr404 "u" k = r404)
    ∧ r404.body = some (some pjEmpty)
    ∧ (∀ p l, (some pjEmpty : Option PJson) = some p → p.errors = some l → l ≠ [])
    ∧ (((∃ c e₁ resp hs s',
          handleData tr404 "u" none 0 cState0 = (.ok (.error c e₁ resp hs), s'))
        ↔ (r404.ok = false ∨ jsonHasErrors (some pjEmpty) = true))
      ∧ (r404.ok = true → jsonHasErrors (some pjEmpty) = false →
          handleData tr404 "u" none 0 cState0 =
            (.ok (.success r404.status (some pjEmpty) r404 (buildHeaders r404.headers)),
              bumpState "u" cState0))) := by
  have hne : ∀ p l, (some pjEmpty : Option PJson) = some p → p.errors = some l → l ≠ [] := by
    intro p l hp hl
    cases hp
    simp [pjEmpty] at hl
  exact ⟨fun _ => rfl, rfl, hne,
    C2_classification_iff tr404 "u" none cState0 r404 (some pjEmpty) (fun _ => rfl) rfl hne⟩

/-- Witness for C3 at the three-page mock walk of the spec's test 7. -/
theorem C3_page_walk_accumulation_witness :
    Chained tr3 "sleep" "u1" pages3 ∧ pages3 ≠ [] ∧ pages3.length ≤ 3
    ∧ ∃ yields' s' lastItems,
        pageGenerator tr3 none "u1" "sleep" 3 cState0
          = (.ok (yields',
              ⟨pageSuccess "sleep" lastItems "", (pages3.map Prod.fst).flatten,
                pages3.length⟩), s')
        ∧ pages3.getLast? = some (lastItems, "")
        ∧ s'.callCount = cState0.callCount + pages3.length
        ∧ s'.urlsCalled = cState0.urlsCalled ++ visited "u1" pages3 := by
  have hch : Chained tr3 "sleep" "u1" pages3 :=
    ⟨by decide, fun _ => rfl, by decide, fun _ => rfl, by decide, fun _ => rfl, rfl⟩
  exact ⟨hch, by decide, by decide,
    C3_page_walk_accumulation tr3 none "sleep" "u1" pages3 3 cState0 hch (by decide) (by decide)⟩

/-- Witness for C4 at the one-good-page-then-failure mock walk. -/
theorem C4_page_walk_failure_witness :
    ChainedFail trFail2 "sleep" frMid "u1" pagesF ∧ failShape frMid ∧ pagesF.length ≤ 2
    ∧ ∃ yields' s',
        pageGenerator trFail2 none "u1" "sleep" 2 cState0
          = (.ok (yields',
              ⟨failResult frMid, (pagesF.map Prod.fst).flatten, pagesF.length + 1⟩), s')
        ∧ (∀ y ∈ yields', y.lastResponse.isSuccess = true)
        ∧ s'.callCount = cState0.callCount + pagesF.length + 1
        ∧ s'.urlsCalled = cState0.urlsCalled ++ visitedFail "u1" pagesF := by
  have hch : ChainedFail trFail2 "sleep" frMid "u1" pagesF :=
    ⟨by decide, fun _ => rfl, by decide, fun _ => rfl⟩
  have hfr : failShape frMid := ⟨rfl, pjEmpty, rfl, rfl⟩
  exact ⟨hch, hfr, by decide,
    C4_page_walk_failure trFail2 none "sleep" "u1" pagesF frMid 2 cState0 hch hfr (by decide)⟩

/-- Witness for C5 at concrete 403, 500 and success responses. -/
theorem C5_unparseable_body_witness :
    r403NoParse.body = none ∧ r403NoParse.ok = false ∧ r403NoParse.status ≠ 500
    ∧ r500NoParse.body = none ∧ r500NoParse.ok = false ∧ r500NoParse.status = 500
    ∧ r204NoParse.body = none ∧ r204NoParse.ok = true
    ∧ handleData tr403 "u" none 0 cState0 = (.error "Unhandled Error", bumpState "u" cState0)
    ∧ handleData tr500 "u" none 0 cState0 =
        (.ok (.error 500 none r500NoParse (buildHeaders r500NoParse.headers)),
          bumpState "u" cState0)
    ∧ handleData tr204 "u" none 0 cState0 =
        (.ok (.success r204NoParse.status none r204NoParse (buildHeaders r204NoParse.headers)),
          bumpState "u" cState0) :=
  ⟨rfl, rfl, by decide, rfl, rfl, rfl, rfl, rfl,
   (C5_unparseable_body tr403 "u" none 0 cState0 rfl).1 rfl (by decide),
   (C5_unparseable_body tr500 "u" none 0 cState0 rfl).2.1 rfl rfl,
   (C5_unparseable_body tr204 "u" none 0 cState0 rfl).2.2 rfl⟩

/-- Witness for C6 at a concrete expired-token response and throwing callback. -/
theorem C6_refresh_throw_swallowed_witness :
    (trExpired "u" cState0.callCount).body = some (some expiredBody)
    ∧ expiredBody.errors = some [⟨"expired_token", "Access token expired"⟩]
    ∧ gBad 0 = .error "refresh failed"
    ∧ handleData trExpired "u" (some gBad) 0 cState0 =
        (.ok (.error (trExpired "u" cState0.callCount).status (some expiredBody)
            (trExpired "u" cState0.callCount)
            (buildHeaders (trExpired "u" cState0.callCount).headers)),
          bumpState "u" cState0) :=
  ⟨rfl, rfl, rfl,
   C6_refresh_throw_swallowed trExpired "u" gBad cState0 expiredBody
     ⟨"expired_token", "Access token expired"⟩ [] "refresh failed" rfl rfl (Or.inl rfl) rfl⟩

/-- Witness for C7 at the inputs of the spec (the unparsable string and NaN). -/
theorem C7_invalid_date_rejected_witness :
    resolveDate hostW (.str "not a date") = none
    ∧ resolveDate hostW (.num none) = none
    ∧ toDate hostW (.str "not a date") =
        .error ⟨"date: \"not a date\" is an invalid date", "Invalid Date"⟩
    ∧ toDate hostW (.num none) =
        .error ⟨"date: \"NaN\" is an invalid date", "Invalid Date"⟩ :=
  ⟨rfl, rfl, C7_invalid_date_rejected hostW (.str "not a date") rfl,
   C7_invalid_date_rejected hostW (.num none) rfl⟩

/-- Witness for C9 at a fresh client driven through a refresh-retrying call. -/
theorem C9_credential_invariant_witness :
    headerInv cState0
    ∧ headerInv (handleData trExpired "u" (some gOk) 0 cState0).2 := by
  have h : headerInv cState0 := rfl
  exact ⟨h, C9_credential_invariant.2.2.1 trExpired "u" (some gOk) 0 cState0 h⟩

/-- Witness for C10 (amended) at a concrete two-entry dictionary. -/
theorem C10_query_prefix_witness :
    nonValue (none : Option String) = true
    ∧ (∃ kv ∈ [("b", some "1")], nonValue kv.2 = false)
    ∧ (∀ kv ∈ [("a", (none : Option String)), ("b", some "1")],
        '?' ∉ kv.1.data ∧ '?' ∉ (kv.2.getD "").data)
    ∧ (dictToUrlParams [] = ""
       ∧ (dictToUrlParams [("a", none), ("b", some "1")]).data.head? = some '&'
       ∧ '?' ∉ (dictToUrlParams [("a", none), ("b", some "1")]).data) :=
  ⟨rfl, by decide, by decide,
   C10_query_prefix "a" none [("b", some "1")] rfl (by decide) (by decide)⟩

/-- Claim C2, counterexample: a response with a success status whose
parsed payload carries an (empty) error-list field makes the classifier
throw a TypeError (destructuring the first entry of an empty list) instead
of returning the Failure variant, refuting the claimed equivalence as
stated. -/
theorem C2_empty_errors_throws :
    okErrResp.ok = true
    ∧ okErrResp.body = some (some emptyErrBody)
    ∧ jsonHasErrors (some emptyErrBody) = true
    ∧ ¬ ∃ c e₁ resp hs s',
        handleData (fun _ _ => okErrResp) "u" none 0 cState0 = (.ok (.error c e₁ resp hs), s') := by
  refine ⟨rfl, rfl, rfl, ?_⟩
  intro ⟨c, e₁, resp, hs, s', h⟩
  rw [show handleData (fun _ _ => okErrResp) "u" none 0 cState0 =
    (.error "TypeError", bumpState "u" cState0) from rfl] at h
  simp at h

end Fitbit
